import Mathlib

/-!
Verification of the Rodomo NES-emulator core (`src/ram.rs`, `src/asc.rs`,
`src/cpu.rs`, `src/ppu.rs`) against its natural-language specification.

Machine integers are embedded as `Nat`:
- `u8`/`u16` values are `Nat`s kept below `2^8`/`2^16` by the operations
  themselves (wrapping arithmetic is explicit `% 256` / `% 65536`,
  bit operations are `&&&`, `|||`, `^^^`, `<<<`, `>>>`);
- Rust's checked `+`/`+=` on a fixed-width integer (which is a program
  error on overflow) is embedded as a guarded addition returning `Option`;
- a Rust `panic!`, including the implicit panic of indexing a `HashMap`
  at a missing key, is embedded as `none`.
-/

namespace Rodomo

/-- `Ram` (ram.rs): `memory: HashMap<u16, u8>` as a partial map from
addresses to byte values. -/
def Ram : Type := Nat → Option Nat

/-- `Ram::create` (ram.rs): an empty map. -/
def Ram.create : Ram := fun _ => none

/-- `Ram::write` (ram.rs): `self.memory.insert(addr, value)`. -/
def Ram.write (m : Ram) (addr value : Nat) : Ram :=
  fun x => if x = addr then some value else m x

/-- `Ram::read` (ram.rs): `self.memory[&addr]`; indexing a `HashMap` at a
missing key panics, embedded as `none`. -/
def Ram.read (m : Ram) (addr : Nat) : Option Nat := m addr

/-- `Asc` (asc.rs): the address-space controller. The registered devices of
every bus the checked claims exercise are byte-storage (`Ram`) instances, so
device slots hold `Ram` states; `devices` maps a raw address to the index of
the registered device object (several addresses may share one index, which
models `Rc`-shared devices), and `mirrorMasks` keeps the per-address mirror
mask. -/
structure Asc where
  devices : Nat → Option Nat
  mirrorMasks : Nat → Option Nat
  states : Nat → Ram

/-- `Asc::write` (asc.rs): the device is looked up at the *raw* incoming
address, the mirror mask (when registered) is then applied to the address,
and the masked address is what the device receives; a miss warns and drops
the write. -/
def Asc.write (bus : Asc) (addr value : Nat) : Asc :=
  let dev := bus.devices addr
  let addr' :=
    match bus.mirrorMasks addr with
    | some mask => addr &&& mask
    | none => addr
  match dev with
  | some i =>
      { bus with
        states := fun j => if j = i then (bus.states i).write addr' value else bus.states j }
  | none => bus

/-- `Asc::read` (asc.rs): device looked up at the raw address, mask applied
afterwards; a miss warns and returns 0. A `Ram` device does not change state
on a read, so only the value is returned; a panicking device read (missing
key in byte storage) propagates as `none`. -/
def Asc.read (bus : Asc) (addr : Nat) : Option Nat :=
  let dev := bus.devices addr
  let addr' :=
    match bus.mirrorMasks addr with
    | some mask => addr &&& mask
    | none => addr
  match dev with
  | some i => (bus.states i).read addr'
  | none => some 0

/-! Arithmetic helper lemmas about the bit operations used by the code. -/

theorem and_255_eq_mod (x : Nat) : x &&& 255 = x % 256 := by
  have h := Nat.and_pow_two_sub_one_eq_mod x 8
  norm_num at h
  exact h

theorem and_mask_idem (x m : Nat) : (x &&& m) &&& m = x &&& m := by
  apply Nat.eq_of_testBit_eq
  intro i
  simp [Nat.testBit_and, Bool.and_assoc]

theorem shiftRight_8_eq_div (x : Nat) : x >>> 8 = x / 256 := by
  have h := Nat.shiftRight_eq_div_pow x 8
  norm_num at h
  exact h

theorem shiftLeft_8_eq_mul (x : Nat) : x <<< 8 = x * 256 := by
  have h := Nat.shiftLeft_eq x 8
  norm_num at h
  exact h

/-- Reassembling the two bytes pushed by `push_long` the way `pop_long`
does recovers the original 16-bit value. -/
theorem merge_bytes (v : Nat) (hv : v < 65536) :
    (v &&& 255) ||| (((v >>> 8) &&& 255) <<< 8) = v := by
  have hsr : v >>> 8 = v / 256 := shiftRight_8_eq_div v
  have hd : v / 256 % 256 = v / 256 := Nat.mod_eq_of_lt (by omega)
  have hsl : (v / 256) <<< 8 = v / 256 * 256 := shiftLeft_8_eq_mul (v / 256)
  rw [and_255_eq_mod, hsr, and_255_eq_mod, hd, hsl]
  apply Nat.eq_of_testBit_eq
  intro j
  rw [Nat.testBit_or]
  have hm : v % 256 < 2 ^ 8 := by omega
  have key := Nat.testBit_mul_pow_two_add (v / 256) hm j
  have hv' : 2 ^ 8 * (v / 256) + v % 256 = v := by omega
  rw [hv'] at key
  rw [key]
  have key2 := Nat.testBit_mul_pow_two_add (v / 256) (show (0 : Nat) < 2 ^ 8 by norm_num) j
  have he : 2 ^ 8 * (v / 256) + 0 = v / 256 * 256 := by ring
  rw [he] at key2
  rw [key2]
  rcases lt_or_ge j 8 with h | h
  · simp [h]
  · have hnb : (v % 256).testBit j = false := by
      apply Nat.testBit_lt_two_pow
      calc v % 256 < 2 ^ 8 := hm
        _ ≤ 2 ^ j := Nat.pow_le_pow_right (by norm_num) h
    simp [h, Nat.not_lt_of_ge h, hnb]

set_option maxRecDepth 4000 in
theorem lor_256_eq_add : ∀ s < 256, (256 ||| s) = 256 + s := by decide

set_option maxRecDepth 4000 in
theorem stack_addr_mask : ∀ k < 256, (256 + k) &&& 65535 = 256 + k := by decide

/-! ## C2 — byte storage read contract -/

/-- C2: the claim states that `read(addr)` returns the value most recently
written at `addr` and 0 if the address was never written, never failing.
On the code, a read of a never-written address indexes the `HashMap` at a
missing key and panics: a fresh storage read at address 0 is `none` rather
than `some 0`, while a read after a write does return the written value. -/
theorem ram_read_unwritten_panics :
    Ram.read Ram.create 0 = none
      ∧ (Ram.write Ram.create 0 7).read 0 = some 7 := by
  constructor
  · rfl
  · rfl

/-! ## C3 — bus mirroring -/

/-- Concrete bus refuting C3 as stated: one device (index 0) registered at
raw address 8 with mirror mask 0, and nothing registered at `8 &&& 0 = 0`. -/
def c3Bus : Asc :=
  { devices := fun a => if a = 8 then some 0 else none
    mirrorMasks := fun a => if a = 8 then some 0 else none
    states := fun _ => Ram.create }

/-- C3 (counterexample): with a device registered at raw address 8 under
mirror mask 0 and no device at the masked address 0, writing through the bus
at 8 lands in the device (at masked cell 0), while writing at `8 &&& 0 = 0`
is a miss that drops the value — the two writes are observably different, and
the reads differ as well: the device lookup uses the raw address, not the
masked one. -/
theorem bus_mirror_counterexample :
    ((Asc.write c3Bus 8 5).states 0).read 0 = some 5
      ∧ ((Asc.write c3Bus 0 5).states 0).read 0 = none
      ∧ Asc.read c3Bus 8 = none
      ∧ Asc.read c3Bus 0 = some 0 := by
  refine ⟨rfl, rfl, rfl, rfl⟩

/-- C3 (amended): the mirror mask is applied to the incoming address after
the device lookup (which uses the raw address) but before the device access;
whenever the masked alias `x &&& m` is itself registered to the same device
with the same mask — as range registration produces — an access at the raw
address `x` is observationally identical to the same access at `x &&& m`. -/
theorem bus_mirror_well_registered (bus : Asc) (x m v i : Nat)
    (hd : bus.devices x = some i) (hm : bus.mirrorMasks x = some m)
    (hd' : bus.devices (x &&& m) = some i)
    (hm' : bus.mirrorMasks (x &&& m) = some m) :
    Asc.write bus x v = Asc.write bus (x &&& m) v
      ∧ Asc.read bus x = Asc.read bus (x &&& m) := by
  constructor
  · unfold Asc.write
    rw [hd, hm, hd', hm']
    simp [and_mask_idem]
  · unfold Asc.read
    rw [hd, hm, hd', hm']
    simp [and_mask_idem]

/-- Concrete bus for exercising `bus_mirror_well_registered`: a PPU-register
style mapping where addresses 0x2000–0x2fff all route to device 0 under
mirror mask 0x2007. -/
def c3WitnessBus : Asc :=
  { devices := fun a => if 0x2000 ≤ a ∧ a ≤ 0x2fff then some 0 else none
    mirrorMasks := fun a => if 0x2000 ≤ a ∧ a ≤ 0x2fff then some 0x2007 else none
    states := fun _ => Ram.create }

theorem bus_mirror_well_registered_witness :
    c3WitnessBus.devices 0x2008 = some 0
      ∧ c3WitnessBus.mirrorMasks 0x2008 = some 0x2007
      ∧ c3WitnessBus.devices (0x2008 &&& 0x2007) = some 0
      ∧ c3WitnessBus.mirrorMasks (0x2008 &&& 0x2007) = some 0x2007
      ∧ (Asc.write c3WitnessBus 0x2008 5 = Asc.write c3WitnessBus (0x2008 &&& 0x2007) 5
          ∧ Asc.read c3WitnessBus 0x2008 = Asc.read c3WitnessBus (0x2008 &&& 0x2007)) :=
  ⟨by decide, by decide, by decide, by decide,
    bus_mirror_well_registered c3WitnessBus 0x2008 0x2007 5 0
      (by decide) (by decide) (by decide) (by decide)⟩

/-! ## C1 — ADC arithmetic and flags -/

theorem bit7_iff_shift (e : Nat) (he : e < 256) :
    Nat.testBit e 7 = true ↔ e >>> 7 ≠ 0 := by
  rw [Nat.testBit_to_div_mod]
  have h := Nat.shiftRight_eq_div_pow e 7
  norm_num at h
  rw [h]
  simp only [decide_eq_true_eq]
  omega

theorem and_128_iff_bit7 (x : Nat) :
    x &&& 128 ≠ 0 ↔ Nat.testBit x 7 = true := by
  have h := Nat.and_two_pow x 7
  norm_num at h
  rw [h]
  cases hx : Nat.testBit x 7 <;> simp

/-- Result of `Cpu::add_with_carry` (cpu.rs): the flag and accumulator
fields it assigns. -/
structure AdcResult where
  a : Nat
  carry : Bool
  overflow : Bool
  zero : Bool
  negative : Bool

/-- `Cpu::add_with_carry` (cpu.rs): two-stage wrapping byte addition.
`t1 = a.wrapping_add(value)`, first-stage carry is `t1 < a`,
`t2 = t1.wrapping_add(carry_in)`, carry is either stage wrapping,
overflow is `(!(a ^ value) & (a ^ t2)) >> 7 != 0` (the 8-bit complement
`!x` is `x ^^^ 255`), and zero/negative come from the result byte. -/
def addWithCarry (a value : Nat) (carryIn : Bool) : AdcResult :=
  let t1 := (a + value) % 256
  let c := decide (t1 < a)
  let t2 := (t1 + (if carryIn then 1 else 0)) % 256
  { a := t2
    carry := c || decide (t2 < t1)
    overflow := decide ((((a ^^^ value) ^^^ 255) &&& (a ^^^ t2)) >>> 7 ≠ 0)
    zero := decide (t2 = 0)
    negative := decide (t2 &&& 128 ≠ 0) }

/-- Statement of claim C1 at one input triple: the ADC result is
`(a + b + c) mod 256`; carry is set iff either addition stage overflows
8 bits; overflow is bit 7 of `(~(a XOR b) & (a XOR result))`; zero is set
iff the result is 0; negative is bit 7 of the result. -/
def AdcClaim (a b : Nat) (c : Bool) : Prop :=
  let cv := if c then 1 else 0
  let r := addWithCarry a b c
  r.a = (a + b + cv) % 256
    ∧ (r.carry = true ↔ (255 < a + b ∨ 255 < (a + b) % 256 + cv))
    ∧ (r.overflow = true ↔
        Nat.testBit (((a ^^^ b) ^^^ 255) &&& (a ^^^ ((a + b + cv) % 256))) 7 = true)
    ∧ (r.zero = true ↔ (a + b + cv) % 256 = 0)
    ∧ (r.negative = true ↔ Nat.testBit ((a + b + cv) % 256) 7 = true)

/-- C1: for all byte values `a`, `b` and carry-in `c`, `add_with_carry`
computes the sum mod 256 and sets the carry, overflow, zero and negative
flags exactly as the claim states. -/
theorem adc_matches_claim (a b : Nat) (c : Bool) (ha : a < 256) (hb : b < 256) :
    AdcClaim a b c := by
  have hcv : (if c then (1 : Nat) else 0) ≤ 1 := by cases c <;> simp
  unfold AdcClaim addWithCarry
  simp only []
  set cv := (if c then (1 : Nat) else 0) with hcvdef
  have ht2 : ((a + b) % 256 + cv) % 256 = (a + b + cv) % 256 := by omega
  rw [ht2]
  refine ⟨rfl, ?_, ?_, ?_, ?_⟩
  · simp only [Bool.or_eq_true, decide_eq_true_eq]
    omega
  · simp only [decide_eq_true_eq]
    have hxab : a ^^^ b < 256 := Nat.xor_lt_two_pow (n := 8) ha hb
    have hxn : (a ^^^ b) ^^^ 255 < 256 :=
      Nat.xor_lt_two_pow (n := 8) hxab (by norm_num)
    have hE : ((a ^^^ b) ^^^ 255) &&& (a ^^^ ((a + b + cv) % 256)) < 256 :=
      lt_of_le_of_lt Nat.and_le_left hxn
    exact (bit7_iff_shift _ hE).symm
  · simp
  · simp only [decide_eq_true_eq]
    exact and_128_iff_bit7 ((a + b + cv) % 256)

theorem adc_matches_claim_witness :
    200 < 256 ∧ 100 < 256 ∧ AdcClaim 200 100 true :=
  ⟨by decide, by decide, adc_matches_claim 200 100 true (by decide) (by decide)⟩

/-! ## CPU state and stack protocol (cpu.rs) -/

/-- `Cpu` (cpu.rs): registers, flags and the cycle counter. -/
structure Cpu where
  sp : Nat
  pc : Nat
  a : Nat
  x : Nat
  y : Nat
  carry_flag : Bool
  zero_flag : Bool
  interrupt_flag : Bool
  decimal_flag : Bool
  break_cmd_flag : Bool
  reserved_flag : Bool
  overflow_flag : Bool
  negative_flag : Bool
  cycles : Nat

/-- `Cpu::push` (cpu.rs): store at `0x0100 | SP`, then `SP.wrapping_sub(1)`. -/
def Cpu.push (cpu : Cpu) (bus : Asc) (value : Nat) : Cpu × Asc :=
  ({ cpu with sp := (cpu.sp + 255) % 256 }, bus.write (256 ||| cpu.sp) value)

/-- `Cpu::pop` (cpu.rs): `SP.wrapping_add(1)`, then read at `0x0100 | SP`;
a panicking byte-storage read propagates as `none`. -/
def Cpu.pop (cpu : Cpu) (bus : Asc) : Option (Nat × Cpu) :=
  let sp' := (cpu.sp + 1) % 256
  match bus.read (256 ||| sp') with
  | some v => some (v, { cpu with sp := sp' })
  | none => none

/-- `Cpu::push_long` (cpu.rs): push the high byte, then the low byte. -/
def Cpu.pushLong (cpu : Cpu) (bus : Asc) (value : Nat) : Cpu × Asc :=
  let s1 := cpu.push bus ((value >>> 8) &&& 255)
  s1.1.push s1.2 (value &&& 255)

/-- `Cpu::pop_long` (cpu.rs): pop the low byte, then or in the popped high
byte shifted left by 8. -/
def Cpu.popLong (cpu : Cpu) (bus : Asc) : Option (Nat × Cpu) :=
  match cpu.pop bus with
  | none => none
  | some (lo, cpu1) =>
    match cpu1.pop bus with
    | none => none
    | some (hi, cpu2) => some (lo ||| (hi <<< 8), cpu2)

/-- Iterated `push` of the byte 0, for the 256-push stress property. -/
def pushN : Nat → Cpu → Asc → Cpu × Asc
  | 0, cpu, bus => (cpu, bus)
  | n + 1, cpu, bus =>
    let s := cpu.push bus 0
    pushN n s.1 s.2

/-- Iterated `pop`, discarding the popped values; `none` if any pop panics. -/
def popN : Nat → Cpu → Asc → Option Cpu
  | 0, cpu, _ => some cpu
  | n + 1, cpu, bus =>
    match cpu.pop bus with
    | none => none
    | some (_, cpu1) => popN n cpu1 bus

theorem push_eq (cpu : Cpu) (bus : Asc) (v i : Nat) (hsp : cpu.sp < 256)
    (hdev : bus.devices (256 + cpu.sp) = some i)
    (hmask : bus.mirrorMasks (256 + cpu.sp) = some 65535) :
    cpu.push bus v =
      ({ cpu with sp := (cpu.sp + 255) % 256 },
       { bus with
          states := fun j =>
            if j = i then (bus.states i).write (256 + cpu.sp) v else bus.states j }) := by
  unfold Cpu.push Asc.write
  dsimp only
  rw [lor_256_eq_add cpu.sp hsp, hdev, hmask]
  dsimp only
  rw [stack_addr_mask cpu.sp hsp]

theorem pop_eq (cpu : Cpu) (bus : Asc) (i w : Nat)
    (hdev : bus.devices (256 + (cpu.sp + 1) % 256) = some i)
    (hmask : bus.mirrorMasks (256 + (cpu.sp + 1) % 256) = some 65535)
    (hcell : (bus.states i).read (256 + (cpu.sp + 1) % 256) = some w) :
    cpu.pop bus = some (w, { cpu with sp := (cpu.sp + 1) % 256 }) := by
  unfold Cpu.pop Asc.read
  have h1 : (cpu.sp + 1) % 256 < 256 := Nat.mod_lt _ (by norm_num)
  dsimp only
  rw [lor_256_eq_add _ h1, hdev, hmask]
  dsimp only
  rw [stack_addr_mask _ h1, hcell]

theorem ram_read_write_self (m : Ram) (a v : Nat) : (m.write a v).read a = some v := by
  simp [Ram.write, Ram.read]

theorem ram_read_write_ne (m : Ram) (a b v : Nat) (h : b ≠ a) :
    (m.write a v).read b = m.read b := by
  simp [Ram.write, Ram.read, h]

theorem ram_write_keeps_isSome (m : Ram) (a b v : Nat)
    (h : (m.read b).isSome = true) : ((m.write a v).read b).isSome = true := by
  by_cases hb : b = a
  · subst hb
    rw [ram_read_write_self]
    rfl
  · rw [ram_read_write_ne m a b v hb]
    exact h

/-- Two pushes through an identity-masked stack page: explicit shape of the
resulting CPU and bus. -/
theorem pushLong_eq (cpu : Cpu) (bus : Asc) (i v : Nat)
    (hsp : cpu.sp < 256)
    (hdev : ∀ k, k < 256 → bus.devices (256 + k) = some i)
    (hmask : ∀ k, k < 256 → bus.mirrorMasks (256 + k) = some 65535) :
    cpu.pushLong bus v =
      ({ cpu with sp := ((cpu.sp + 255) % 256 + 255) % 256 },
       { bus with
          states := fun j =>
            if j = i then
              ((bus.states i).write (256 + cpu.sp) ((v >>> 8) &&& 255)).write
                (256 + (cpu.sp + 255) % 256) (v &&& 255)
            else bus.states j }) := by
  have hsp1 : (cpu.sp + 255) % 256 < 256 := Nat.mod_lt _ (by norm_num)
  have e1 := push_eq cpu bus ((v >>> 8) &&& 255) i hsp (hdev _ hsp) (hmask _ hsp)
  unfold Cpu.pushLong
  rw [e1]
  dsimp only
  have e2 := push_eq { cpu with sp := (cpu.sp + 255) % 256 }
      { bus with
        states := fun j =>
          if j = i then (bus.states i).write (256 + cpu.sp) ((v >>> 8) &&& 255)
          else bus.states j }
      (v &&& 255) i hsp1 (hdev _ hsp1) (hmask _ hsp1)
  rw [e2]
  dsimp only
  refine Prod.ext rfl ?_
  dsimp only
  congr 1
  funext j
  by_cases hj : j = i
  · simp [hj]
  · simp [hj]

theorem asc_write_devices (bus : Asc) (a v : Nat) :
    (bus.write a v).devices = bus.devices := by
  unfold Asc.write
  dsimp only
  cases hd : bus.devices a <;> simp [hd]

theorem asc_write_masks (bus : Asc) (a v : Nat) :
    (bus.write a v).mirrorMasks = bus.mirrorMasks := by
  unfold Asc.write
  dsimp only
  cases hd : bus.devices a <;> simp [hd]

theorem pushN_busmaps (n : Nat) : ∀ (cpu : Cpu) (bus : Asc),
    (pushN n cpu bus).2.devices = bus.devices
      ∧ (pushN n cpu bus).2.mirrorMasks = bus.mirrorMasks := by
  induction n with
  | zero => intro cpu bus; exact ⟨rfl, rfl⟩
  | succ n ih =>
    intro cpu bus
    have h := ih { cpu with sp := (cpu.sp + 255) % 256 } (bus.write (256 ||| cpu.sp) 0)
    simp only [pushN]
    exact ⟨h.1.trans (asc_write_devices bus _ 0),
      h.2.trans (asc_write_masks bus _ 0)⟩

theorem pushN_sp (n : Nat) : ∀ (cpu : Cpu) (bus : Asc), cpu.sp < 256 →
    (pushN n cpu bus).1.sp = (cpu.sp + 255 * n) % 256 := by
  induction n with
  | zero =>
    intro cpu bus hsp
    simp [pushN, Nat.mod_eq_of_lt hsp]
  | succ n ih =>
    intro cpu bus hsp
    have hsub : (cpu.push bus 0).1.sp = (cpu.sp + 255) % 256 := rfl
    have h := ih (cpu.push bus 0).1 (cpu.push bus 0).2
      (by rw [hsub]; exact Nat.mod_lt _ (by norm_num))
    simp only [pushN]
    rw [h, hsub]
    omega

theorem pushN_cells (i : Nat) (n : Nat) : ∀ (cpu : Cpu) (bus : Asc), cpu.sp < 256 →
    (∀ k, k < 256 → bus.devices (256 + k) = some i) →
    (∀ k, k < 256 → bus.mirrorMasks (256 + k) = some 65535) →
    (∀ a, ((bus.states i).read a).isSome = true →
        (((pushN n cpu bus).2.states i).read a).isSome = true)
    ∧ (∀ t, t < n →
        (((pushN n cpu bus).2.states i).read (256 + (cpu.sp + 255 * t) % 256)).isSome
          = true) := by
  induction n with
  | zero =>
    intro cpu bus hsp hdev hmask
    exact ⟨fun a h => h, fun t ht => absurd ht (Nat.not_lt_zero t)⟩
  | succ n ih =>
    intro cpu bus hsp hdev hmask
    have hsp1 : (cpu.sp + 255) % 256 < 256 := Nat.mod_lt _ (by norm_num)
    have e := push_eq cpu bus 0 i hsp (hdev _ hsp) (hmask _ hsp)
    have hstep : pushN (n + 1) cpu bus =
        pushN n { cpu with sp := (cpu.sp + 255) % 256 }
          { bus with
            states := fun j =>
              if j = i then (bus.states i).write (256 + cpu.sp) 0 else bus.states j } := by
      simp only [pushN]
      rw [e]
    have hmono := ih { cpu with sp := (cpu.sp + 255) % 256 }
      { bus with
        states := fun j =>
          if j = i then (bus.states i).write (256 + cpu.sp) 0 else bus.states j }
      hsp1 (fun k hk => hdev k hk) (fun k hk => hmask k hk)
    rw [hstep]
    constructor
    · intro a ha
      apply hmono.1
      simp only [if_pos rfl]
      exact ram_write_keeps_isSome _ _ _ _ ha
    · intro t ht
      rcases t with _ | t'
      · have haddr : (cpu.sp + 255 * 0) % 256 = cpu.sp := by omega
        rw [haddr]
        apply hmono.1
        dsimp only
        simp [ram_read_write_self]
      · have h255 : ((cpu.sp + 255) % 256 + 255 * t') % 256
            = (cpu.sp + 255 * (t' + 1)) % 256 := by omega
        have hc := hmono.2 t' (by omega)
        dsimp only at hc
        rw [h255] at hc
        exact hc

theorem popN_spec (i : Nat) (n : Nat) : ∀ (cpu : Cpu) (bus : Asc), cpu.sp < 256 →
    (∀ k, k < 256 → bus.devices (256 + k) = some i) →
    (∀ k, k < 256 → bus.mirrorMasks (256 + k) = some 65535) →
    (∀ k, k < 256 → ((bus.states i).read (256 + k)).isSome = true) →
    ∃ cpu', popN n cpu bus = some cpu' ∧ cpu'.sp = (cpu.sp + n) % 256 := by
  induction n with
  | zero =>
    intro cpu bus hsp hdev hmask hcells
    exact ⟨cpu, rfl, (Nat.mod_eq_of_lt hsp).symm⟩
  | succ n ih =>
    intro cpu bus hsp hdev hmask hcells
    have hsp1 : (cpu.sp + 1) % 256 < 256 := Nat.mod_lt _ (by norm_num)
    obtain ⟨w, hw⟩ := Option.isSome_iff_exists.mp (hcells _ hsp1)
    have e := pop_eq cpu bus i w (hdev _ hsp1) (hmask _ hsp1) hw
    obtain ⟨cpu', h1, h2⟩ := ih { cpu with sp := (cpu.sp + 1) % 256 } bus hsp1
      hdev hmask hcells
    refine ⟨cpu', ?_, ?_⟩
    · simp only [popN]
      rw [e]
      exact h1
    · rw [h2]
      dsimp only
      omega

/-- Two pops through an identity-masked stack page holding known bytes. -/
theorem popLong_eq (cpu : Cpu) (bus : Asc) (i lo hi : Nat)
    (hdev : ∀ k, k < 256 → bus.devices (256 + k) = some i)
    (hmask : ∀ k, k < 256 → bus.mirrorMasks (256 + k) = some 65535)
    (hlo : (bus.states i).read (256 + (cpu.sp + 1) % 256) = some lo)
    (hhi : (bus.states i).read (256 + (cpu.sp + 2) % 256) = some hi) :
    cpu.popLong bus = some (lo ||| (hi <<< 8), { cpu with sp := (cpu.sp + 2) % 256 }) := by
  have hsp1 : (cpu.sp + 1) % 256 < 256 := Nat.mod_lt _ (by norm_num)
  have e1 := pop_eq cpu bus i lo (hdev _ hsp1) (hmask _ hsp1) hlo
  have h2 : ((cpu.sp + 1) % 256 + 1) % 256 = (cpu.sp + 2) % 256 := by omega
  have hdev2 : bus.devices (256 + ((cpu.sp + 1) % 256 + 1) % 256) = some i := by
    rw [h2]
    exact hdev _ (Nat.mod_lt _ (by norm_num))
  have hmask2 : bus.mirrorMasks (256 + ((cpu.sp + 1) % 256 + 1) % 256) = some 65535 := by
    rw [h2]
    exact hmask _ (Nat.mod_lt _ (by norm_num))
  have hcell2 : (bus.states i).read (256 + ((cpu.sp + 1) % 256 + 1) % 256) = some hi := by
    rw [h2]
    exact hhi
  have e2 := pop_eq { cpu with sp := (cpu.sp + 1) % 256 } bus i hi hdev2 hmask2 hcell2
  unfold Cpu.popLong
  rw [e1]
  dsimp only
  rw [e2]
  dsimp only
  rw [h2]

/-! ## C5 — stack push/pop round trip and wraparound -/

/-- C5: over a bus whose stack page 0x0100–0x01FF is entirely mapped to one
byte-storage device `i` with identity mirror mask, `push_long v` followed by
`pop_long` returns `v` and restores SP; the high byte is stored first, at
`0x0100 + SP`; and 256 consecutive pushes followed by 256 consecutive pops
return SP to its original value with every pop succeeding, SP wrapping
mod 256 throughout. -/
theorem stack_push_pop (cpu : Cpu) (bus : Asc) (i v : Nat)
    (hsp : cpu.sp < 256) (hv : v < 65536)
    (hdev : ∀ k, k < 256 → bus.devices (256 + k) = some i)
    (hmask : ∀ k, k < 256 → bus.mirrorMasks (256 + k) = some 65535) :
    (∃ cpu', (cpu.pushLong bus v).1.popLong (cpu.pushLong bus v).2 = some (v, cpu')
        ∧ cpu'.sp = cpu.sp)
      ∧ ((cpu.pushLong bus v).2.states i).read (256 + cpu.sp) = some ((v >>> 8) &&& 255)
      ∧ (pushN 256 cpu bus).1.sp = cpu.sp
      ∧ (∃ cpu'', popN 256 (pushN 256 cpu bus).1 (pushN 256 cpu bus).2 = some cpu''
          ∧ cpu''.sp = cpu.sp) := by
  have hsp1 : (cpu.sp + 255) % 256 < 256 := Nat.mod_lt _ (by norm_num)
  have hne : 256 + cpu.sp ≠ 256 + (cpu.sp + 255) % 256 := by omega
  have epl := pushLong_eq cpu bus i v hsp hdev hmask
  rw [epl]
  dsimp only
  have hcell1 :
      ((((bus.states i).write (256 + cpu.sp) ((v >>> 8) &&& 255)).write
          (256 + (cpu.sp + 255) % 256) (v &&& 255)).read
        (256 + (cpu.sp + 255) % 256)) = some (v &&& 255) :=
    ram_read_write_self _ _ _
  have hcell2 :
      ((((bus.states i).write (256 + cpu.sp) ((v >>> 8) &&& 255)).write
          (256 + (cpu.sp + 255) % 256) (v &&& 255)).read
        (256 + cpu.sp)) = some ((v >>> 8) &&& 255) := by
    rw [ram_read_write_ne _ _ _ _ hne, ram_read_write_self]
  refine ⟨?_, ?_, ?_, ?_⟩
  · have h21 : ((((cpu.sp + 255) % 256 + 255) % 256) + 1) % 256 = (cpu.sp + 255) % 256 := by
      omega
    have h22 : ((((cpu.sp + 255) % 256 + 255) % 256) + 2) % 256 = cpu.sp := by omega
    have hpl := popLong_eq
      { cpu with sp := ((cpu.sp + 255) % 256 + 255) % 256 }
      { bus with
        states := fun j =>
          if j = i then
            ((bus.states i).write (256 + cpu.sp) ((v >>> 8) &&& 255)).write
              (256 + (cpu.sp + 255) % 256) (v &&& 255)
          else bus.states j }
      i (v &&& 255) ((v >>> 8) &&& 255)
      hdev hmask
      (by
        dsimp only
        rw [if_pos rfl, h21]
        exact hcell1)
      (by
        dsimp only
        rw [if_pos rfl, h22]
        exact hcell2)
    refine ⟨{ cpu with sp := ((((cpu.sp + 255) % 256 + 255) % 256) + 2) % 256 },
      hpl.trans ?_, ?_⟩
    · rw [merge_bytes v hv]
    · exact h22
  · simp only [if_pos rfl]
    exact hcell2
  · rw [pushN_sp 256 cpu bus hsp]
    omega
  · obtain ⟨hmono, hcells⟩ := pushN_cells i 256 cpu bus hsp hdev hmask
    have hall : ∀ k, k < 256 →
        (((pushN 256 cpu bus).2.states i).read (256 + k)).isSome = true := by
      intro k hk
      have hlt : (cpu.sp + 256 - k) % 256 < 256 := Nat.mod_lt _ (by norm_num)
      have ht : (cpu.sp + 255 * ((cpu.sp + 256 - k) % 256)) % 256 = k := by omega
      have hcc := hcells ((cpu.sp + 256 - k) % 256) hlt
      rw [ht] at hcc
      exact hcc
    have hdev' : ∀ k, k < 256 → (pushN 256 cpu bus).2.devices (256 + k) = some i := by
      intro k hk
      rw [(pushN_busmaps 256 cpu bus).1]
      exact hdev k hk
    have hmask' : ∀ k, k < 256 →
        (pushN 256 cpu bus).2.mirrorMasks (256 + k) = some 65535 := by
      intro k hk
      rw [(pushN_busmaps 256 cpu bus).2]
      exact hmask k hk
    have hsp256 : (pushN 256 cpu bus).1.sp < 256 := by
      rw [pushN_sp 256 cpu bus hsp]
      exact Nat.mod_lt _ (by norm_num)
    obtain ⟨cpu'', h1, h2⟩ := popN_spec i 256 (pushN 256 cpu bus).1 (pushN 256 cpu bus).2
      hsp256 hdev' hmask' hall
    refine ⟨cpu'', h1, ?_⟩
    rw [h2, pushN_sp 256 cpu bus hsp]
    omega

/-- `Cpu::new` (cpu.rs): SP starts at 0xff, every other field is the
zero/false default. -/
def Cpu.new : Cpu :=
  { sp := 255, pc := 0, a := 0, x := 0, y := 0, carry_flag := false,
    zero_flag := false, interrupt_flag := false, decimal_flag := false,
    break_cmd_flag := false, reserved_flag := false, overflow_flag := false,
    negative_flag := false, cycles := 0 }

/-- Bus with one byte-storage device mapped everywhere under the identity
mirror mask, used to exercise the stack theorem. -/
def c5Bus : Asc :=
  { devices := fun _ => some 0
    mirrorMasks := fun _ => some 65535
    states := fun _ => Ram.create }

set_option maxRecDepth 8000 in
theorem stack_push_pop_witness :
    Cpu.new.sp < 256 ∧ (43981 : Nat) < 65536
      ∧ (∀ k, k < 256 → c5Bus.devices (256 + k) = some 0)
      ∧ (∀ k, k < 256 → c5Bus.mirrorMasks (256 + k) = some 65535)
      ∧ ((∃ cpu', (Cpu.new.pushLong c5Bus 43981).1.popLong
              (Cpu.new.pushLong c5Bus 43981).2 = some (43981, cpu')
            ∧ cpu'.sp = Cpu.new.sp)
          ∧ ((Cpu.new.pushLong c5Bus 43981).2.states 0).read (256 + Cpu.new.sp)
              = some ((43981 >>> 8) &&& 255)
          ∧ (pushN 256 Cpu.new c5Bus).1.sp = Cpu.new.sp
          ∧ (∃ cpu'', popN 256 (pushN 256 Cpu.new c5Bus).1 (pushN 256 Cpu.new c5Bus).2
                = some cpu''
              ∧ cpu''.sp = Cpu.new.sp)) :=
  ⟨by decide, by decide, by decide, by decide,
    stack_push_pop Cpu.new c5Bus 0 43981 (by decide) (by decide) (by decide) (by decide)⟩

/-! ## Addressing modes and BNE (cpu.rs) -/

/-- Reinterpretation `(x as i8) as i16` of the low byte of a `u16` as a
signed displacement. -/
def toSigned8 (b : Nat) : Int :=
  if b % 256 < 128 then (b % 256 : Int) else (b % 256 : Int) - 256

/-- `u16::wrapping_add_signed`: add a signed displacement with 16-bit
wraparound. -/
def wrappingAddSigned16 (pc : Nat) (d : Int) : Nat :=
  (((pc : Int) + d) % 65536).toNat

/-- `Cpu::zp` (cpu.rs): `pc += 1` (checked), then read the operand byte at
the new PC; also used for `Relative` operands. -/
def Cpu.zp (cpu : Cpu) (bus : Asc) : Option (Nat × Cpu) :=
  if cpu.pc + 1 ≤ 65535 then
    match bus.read (cpu.pc + 1) with
    | some v => some (v, { cpu with pc := cpu.pc + 1 })
    | none => none
  else none

/-- `Cpu::inx` (cpu.rs): `pc += 1` (checked); `addr = (op + X) & 0xff`; the
effective address is `read(addr + 1) << 8 | read(addr)` — note the high
pointer byte is read at `addr + 1` in 16-bit arithmetic, with no wrap back
into the zero page. -/
def Cpu.inx (cpu : Cpu) (bus : Asc) : Option (Nat × Cpu) :=
  if cpu.pc + 1 ≤ 65535 then
    match bus.read (cpu.pc + 1) with
    | none => none
    | some op =>
      let addr := (op + cpu.x) &&& 255
      match bus.read (addr + 1) with
      | none => none
      | some hi =>
        match bus.read addr with
        | none => none
        | some lo => some ((hi <<< 8) ||| lo, { cpu with pc := cpu.pc + 1 })
  else none

/-- `Cpu::iny` (cpu.rs): `pc += 1` (checked); read the pointer low byte at
`op` and the high byte at `op.wrapping_add(1)` (16-bit wraparound, not a
zero-page wrap), then add Y with 16-bit wraparound. -/
def Cpu.iny (cpu : Cpu) (bus : Asc) : Option (Nat × Cpu) :=
  if cpu.pc + 1 ≤ 65535 then
    match bus.read (cpu.pc + 1) with
    | none => none
    | some op =>
      match bus.read ((op + 1) % 65536) with
      | none => none
      | some hi =>
        match bus.read op with
        | none => none
        | some lo =>
          some ((((hi <<< 8) ||| lo) + cpu.y) % 65536, { cpu with pc := cpu.pc + 1 })
  else none

/-- Body of the `Bne` instruction (cpu.rs): when the zero flag is clear,
`pc = pc.wrapping_add_signed((addr as i8) as i16)`; then `pc += 1`
(checked). -/
def Cpu.bneInstr (cpu : Cpu) (addr : Nat) : Option Cpu :=
  let cpu1 :=
    if cpu.zero_flag then cpu
    else { cpu with pc := wrappingAddSigned16 cpu.pc (toSigned8 addr) }
  if cpu1.pc + 1 ≤ 65535 then some { cpu1 with pc := cpu1.pc + 1 } else none

/-- `Bne::run_with(Relative)` (cpu.rs): resolve the relative operand through
`zp`, run the branch body, and add the 2-cycle cost (wrapping `usize`). -/
def Cpu.bneRelative (cpu : Cpu) (bus : Asc) : Option Cpu :=
  match cpu.zp bus with
  | none => none
  | some (addr, cpu1) =>
    match cpu1.bneInstr addr with
    | none => none
    | some cpu2 => some { cpu2 with cycles := (cpu2.cycles + 2) % 18446744073709551616 }

/-- Fragment of `Cpu::run_instruction` (cpu.rs) restricted to the opcode the
claims exercise: 0xD0 dispatches BNE with relative addressing; all other
opcodes are left unmodelled (`none`). -/
def Cpu.runInstruction (cpu : Cpu) (opcode : Nat) (bus : Asc) : Option Cpu :=
  match opcode with
  | 0xD0 => cpu.bneRelative bus
  | _ => none

/-- `Cpu::read_instruction` (cpu.rs): fetch the opcode byte at PC and
dispatch it. -/
def Cpu.readInstruction (cpu : Cpu) (bus : Asc) : Option Cpu :=
  match bus.read cpu.pc with
  | none => none
  | some opcode => cpu.runInstruction opcode bus

/-! ## C6 — BNE with displacement -2 lands on itself -/

/-- C6: with PC = 0x8000, zero flag clear, the BNE opcode 0xD0 at 0x8000 and
the relative operand 0xFE (-2) at 0x8001, executing the single instruction
leaves PC at exactly 0x8000: the signed displacement applies after the
2-byte instruction length is accounted for. -/
theorem bne_back_two (cpu : Cpu) (bus : Asc)
    (hpc : cpu.pc = 0x8000) (hz : cpu.zero_flag = false)
    (h0 : bus.read 0x8000 = some 0xD0) (h1 : bus.read 0x8001 = some 0xFE) :
    ∃ cpu', cpu.readInstruction bus = some cpu' ∧ cpu'.pc = 0x8000 := by
  have h1' : bus.read (32768 + 1) = some 254 := h1
  unfold Cpu.readInstruction
  rw [hpc, h0]
  unfold Cpu.runInstruction Cpu.bneRelative Cpu.zp
  rw [hpc]
  rw [if_pos (by norm_num : 32768 + 1 ≤ 65535)]
  rw [h1']
  dsimp only
  unfold Cpu.bneInstr
  dsimp only
  rw [hz]
  rw [if_neg Bool.false_ne_true]
  have hw : wrappingAddSigned16 (32768 + 1) (toSigned8 254) = 32767 := by decide
  rw [hw]
  rw [if_pos (by norm_num : 32767 + 1 ≤ 65535)]
  exact ⟨_, rfl, rfl⟩

/-- CPU poised at 0x8000, zero flag clear (the `Cpu::new` defaults). -/
def c6Cpu : Cpu := { Cpu.new with pc := 0x8000 }

/-- Bus holding the BNE opcode at 0x8000 and the operand 0xFE at 0x8001. -/
def c6Bus : Asc :=
  { devices := fun _ => some 0
    mirrorMasks := fun _ => none
    states := fun _ => (Ram.create.write 0x8000 0xD0).write 0x8001 0xFE }

theorem bne_back_two_witness :
    c6Cpu.pc = 0x8000 ∧ c6Cpu.zero_flag = false
      ∧ c6Bus.read 0x8000 = some 0xD0 ∧ c6Bus.read 0x8001 = some 0xFE
      ∧ (∃ cpu', c6Cpu.readInstruction c6Bus = some cpu' ∧ cpu'.pc = 0x8000) :=
  ⟨rfl, rfl, by decide, by decide,
    bne_back_two c6Cpu c6Bus rfl rfl (by decide) (by decide)⟩

/-! ## C7 — indexed-indirect and indirect-indexed pointer fetches -/

/-- CPU for the zero-page pointer boundary scenario: PC at 0x200, X = Y = 0. -/
def c7Cpu : Cpu := { Cpu.new with pc := 0x200 }

/-- Bus whose storage holds operand byte 0xFF at 0x201, pointer low byte
0x34 at 0x00FF, the zero-page cell 0x12 at 0x0000 (where a wrapped high
fetch would look), and 0x56 at 0x0100 (where the code actually looks). -/
def c7Bus : Asc :=
  { devices := fun _ => some 0
    mirrorMasks := fun _ => none
    states := fun _ =>
      (((Ram.create.write 0x201 0xFF).write 0xFF 0x34).write 0x0 0x12).write 0x100 0x56 }

/-- C7 (counterexample): with pointer byte at zero-page 0xFF (operand 0xFF,
X = 0 for `(zp,X)`; pointer 0xFF for `(zp),Y` with Y = 0), both modes fetch
the pointer high byte from 0x0100, not from zero-page address 0x00: the
effective address is 0x5634 where the claim's zero-page-wrapped semantics
would give 0x1234. -/
theorem zp_pointer_no_wrap_counterexample :
    (Cpu.inx c7Cpu c7Bus).map Prod.fst = some 0x5634
      ∧ (Cpu.iny c7Cpu c7Bus).map Prod.fst = some 0x5634
      ∧ (0x5634 : Nat) ≠ 0x1234 :=
  ⟨rfl, rfl, by decide⟩

/-- C7 (amended): the low pointer byte of `(zp,X)` is read at
`(op + X) mod 256` and of `(zp),Y` at `op`, but the high pointer byte is
read at the 16-bit address one past the low byte, which stays inside the
zero page only when the low pointer byte lies below 0xFF; under that
condition the effective addresses match the claimed standard semantics. -/
theorem zp_indirect_modes (cpu : Cpu) (bus : Asc) (op lo hi plo phi : Nat)
    (hpc : cpu.pc + 1 ≤ 65535)
    (hop : bus.read (cpu.pc + 1) = some op)
    (hb1 : (op + cpu.x) % 256 < 255)
    (hhi : bus.read ((op + cpu.x + 1) % 256) = some hi)
    (hlo : bus.read ((op + cpu.x) % 256) = some lo)
    (hb2 : op < 255)
    (hphi : bus.read ((op + 1) % 256) = some phi)
    (hplo : bus.read op = some plo) :
    Cpu.inx cpu bus = some ((hi <<< 8) ||| lo, { cpu with pc := cpu.pc + 1 })
      ∧ Cpu.iny cpu bus
          = some ((((phi <<< 8) ||| plo) + cpu.y) % 65536, { cpu with pc := cpu.pc + 1 }) := by
  constructor
  · unfold Cpu.inx
    rw [if_pos hpc, hop]
    dsimp only
    rw [and_255_eq_mod]
    have ha : (op + cpu.x) % 256 + 1 = (op + cpu.x + 1) % 256 := by omega
    rw [ha, hhi, hlo]
  · unfold Cpu.iny
    rw [if_pos hpc, hop]
    dsimp only
    have ha : (op + 1) % 65536 = (op + 1) % 256 := by omega
    rw [ha, hphi, hplo]

/-- CPU for the in-range pointer scenario: PC at 0x300, X = 2, Y = 3. -/
def c7WCpu : Cpu := { Cpu.new with pc := 0x300, x := 2, y := 3 }

/-- Bus for the in-range pointer scenario: operand 0x10 at 0x301, pointer
bytes 0x34/0x56 at 0x12/0x13 for `(zp,X)` and 0x78/0x9A at 0x10/0x11 for
`(zp),Y`. -/
def c7WBus : Asc :=
  { devices := fun _ => some 0
    mirrorMasks := fun _ => none
    states := fun _ =>
      (((((Ram.create.write 0x301 0x10).write 0x12 0x34).write 0x13 0x56).write
          0x10 0x78).write 0x11 0x9A) }

theorem zp_indirect_modes_witness :
    c7WCpu.pc + 1 ≤ 65535
      ∧ c7WBus.read (c7WCpu.pc + 1) = some 0x10
      ∧ (0x10 + c7WCpu.x) % 256 < 255
      ∧ c7WBus.read ((0x10 + c7WCpu.x + 1) % 256) = some 0x56
      ∧ c7WBus.read ((0x10 + c7WCpu.x) % 256) = some 0x34
      ∧ (0x10 : Nat) < 255
      ∧ c7WBus.read ((0x10 + 1) % 256) = some 0x9A
      ∧ c7WBus.read 0x10 = some 0x78
      ∧ (Cpu.inx c7WCpu c7WBus
            = some ((0x56 <<< 8) ||| 0x34, { c7WCpu with pc := c7WCpu.pc + 1 })
          ∧ Cpu.iny c7WCpu c7WBus
              = some ((((0x9A <<< 8) ||| 0x78) + c7WCpu.y) % 65536,
                  { c7WCpu with pc := c7WCpu.pc + 1 })) :=
  ⟨by decide, by decide, by decide, by decide, by decide, by decide, by decide, by decide,
    zp_indirect_modes c7WCpu c7WBus 0x10 0x34 0x56 0x78 0x9A (by decide) (by decide)
      (by decide) (by decide) (by decide) (by decide) (by decide) (by decide)⟩

/-! ## PPU register file (ppu.rs) -/

/-- `VramIncrement` (ppu.rs); the `#[default]` variant is `Down`. -/
inductive VramIncrement
  | Down
  | Across
deriving DecidableEq

/-- `SpriteSize` (ppu.rs); the `#[default]` variant is `Size8x8`. -/
inductive SpriteSize
  | Size8x8
  | Size8x16
deriving DecidableEq

/-- `JobType` (ppu.rs); the `#[default]` variant is `Read`. -/
inductive JobType
  | Read
  | Output
deriving DecidableEq

/-- `Ppu` (ppu.rs): the CPU-visible register bytes, the derived
configuration fields, the vblank boolean, the nested internal bus and the
two-phase latch toggle. The GL rendering handles of the source are outside
the register protocol and are not modelled. -/
structure Ppu where
  control : Nat
  mask : Nat
  status : Nat
  oam_addr : Nat
  oam_data : Nat
  scroll : Nat
  addr : Nat
  oam_dma : Nat
  nametable_base : Nat
  vram_increment : VramIncrement
  sprite_table_addr : Nat
  background_table_addr : Nat
  sprite_size : SpriteSize
  job : JobType
  nmi : Bool
  vblank : Bool
  memory : Asc
  first_byte : Bool

/-- Auto-increment step of the data port (ppu.rs, the `match` in the 0x7
arms): `Across` is 1, `Down` is 32. -/
def Ppu.incrStep (p : Ppu) : Nat :=
  match p.vram_increment with
  | VramIncrement.Across => 1
  | VramIncrement.Down => 32

/-- `Ppu::write` as `MemoryMapped` (ppu.rs). Offset 0 stores the control
byte and recomputes the derived fields exactly as the source does —
including `background_table_addr = 0x100` (not 0x1000) when bit 4 is set.
Offset 6 is the two-phase address latch. Offset 7 writes through the nested
bus and then increments the latched address with an unchecked u16 `+=`,
embedded as a guarded addition. An unregistered offset panics (`none`). -/
def Ppu.write (p : Ppu) (addr value : Nat) : Option Ppu :=
  match addr with
  | 0 => some { p with
      control := value
      nametable_base := 0x2000 + 0x400 * (value &&& 3)
      vram_increment :=
        if value &&& 4 = 0 then VramIncrement.Across else VramIncrement.Down
      sprite_table_addr := if value &&& 8 = 0 then 0 else 0x1000
      background_table_addr := if value &&& 16 = 0 then 0 else 0x100
      sprite_size := if value &&& 32 = 0 then SpriteSize.Size8x8 else SpriteSize.Size8x16
      job := if value &&& 64 = 0 then JobType.Read else JobType.Output
      nmi := decide (value &&& 128 ≠ 0) }
  | 1 => some { p with mask := value }
  | 2 => some p
  | 3 => some { p with oam_addr := value }
  | 4 => some { p with oam_data := value }
  | 5 => some { p with scroll := value }
  | 6 => some { p with
      addr := if p.first_byte then p.addr ||| value else value <<< 8
      first_byte := !p.first_byte }
  | 7 =>
    if p.addr + p.incrStep ≤ 65535 then
      some { p with memory := p.memory.write p.addr value, addr := p.addr + p.incrStep }
    else none
  | 0x4014 => some { p with oam_dma := value }
  | _ => none

/-- `Ppu::read` as `MemoryMapped` (ppu.rs). Offset 2 returns the status
byte as it was, clears the vblank bit of the status byte and resets the
latch toggle. Offset 6 returns `addr as u8`. Offset 7 reads through the
nested bus at the latched address (propagating a byte-storage panic) and
then increments the address with the same guarded addition. -/
def Ppu.read (p : Ppu) (addr : Nat) : Option (Nat × Ppu) :=
  match addr with
  | 0 => some (p.control, p)
  | 1 => some (p.mask, p)
  | 2 => some (p.status, { p with status := p.status &&& 127, first_byte := false })
  | 3 => some (p.oam_addr, p)
  | 4 => some (p.oam_data, p)
  | 5 => some (p.scroll, p)
  | 6 => some (p.addr % 256, p)
  | 7 =>
    match p.memory.read p.addr with
    | none => none
    | some v =>
      if p.addr + p.incrStep ≤ 65535 then
        some (v, { p with addr := p.addr + p.incrStep })
      else none
  | 0x4014 => some (p.oam_dma, p)
  | _ => none

/-- Internal bus built by `Ppu::new` (ppu.rs): pattern tables (device 0)
over 0x0000–0x1fff with mask 0xffff, nametables (device 1) over
0x2000–0x3eff with mask 0xfff, palettes (device 2) over 0x3f00–0x3fff with
mask 0x1f, except that 0x3f10/0x3f14/0x3f18/0x3f1c are re-registered with
mask 0xf afterwards. `Ram::new` is an empty byte storage like
`Ram::create`. -/
def ppuInternalBus (pattern_tables : Ram) : Asc :=
  { devices := fun a =>
      if a ≤ 0x1fff then some 0
      else if 0x2000 ≤ a ∧ a ≤ 0x3eff then some 1
      else if 0x3f00 ≤ a ∧ a ≤ 0x3fff then some 2
      else none
    mirrorMasks := fun a =>
      if a ≤ 0x1fff then some 0xffff
      else if 0x2000 ≤ a ∧ a ≤ 0x3eff then some 0xfff
      else if a = 0x3f10 ∨ a = 0x3f14 ∨ a = 0x3f18 ∨ a = 0x3f1c then some 0xf
      else if 0x3f00 ≤ a ∧ a ≤ 0x3fff then some 0x1f
      else none
    states := fun i => if i = 0 then pattern_tables else Ram.create }

/-- `Ppu::new` (ppu.rs): zeroed registers, default derived fields, vblank
false, latch toggle false, nested internal bus over the given pattern
tables. -/
def Ppu.new (pattern_tables : Ram) : Ppu :=
  { control := 0, mask := 0, status := 0, oam_addr := 0, oam_data := 0,
    scroll := 0, addr := 0, oam_dma := 0, nametable_base := 0,
    vram_increment := VramIncrement.Down, sprite_table_addr := 0,
    background_table_addr := 0, sprite_size := SpriteSize.Size8x8,
    job := JobType.Read, nmi := false, vblank := false,
    memory := ppuInternalBus pattern_tables, first_byte := false }

/-- `Ppu::reset_vblank` (ppu.rs). -/
def Ppu.reset_vblank (p : Ppu) : Ppu :=
  { p with vblank := false, status := p.status &&& 127 }

/-- `Ppu::set_vblank` (ppu.rs). -/
def Ppu.set_vblank (p : Ppu) : Ppu :=
  { p with vblank := true, status := p.status ||| 128 }

/-- `Ppu::should_nmi` (ppu.rs): `vblank && nmi`. -/
def Ppu.should_nmi (p : Ppu) : Bool := p.vblank && p.nmi

/-! ## C4 — control register write -/

/-- C4: the claim states the background pattern base becomes 0x1000 when
bit 4 of the control byte is set. Evaluating the code: writing 0x10 (bit 4
set) to the control register sets `background_table_addr` to 0x100, not
0x1000, although the sprite path (bit 3, write 0x08) does use 0x1000 — a
dropped zero in the background arm. The remaining parts of the claim hold:
writing 0x80 gives nametable base 0x2000 and NMI-enable true with
`should_nmi()` false until `set_vblank()` is called, writing 0x07 gives
nametable base 0x2000 + 0x400 × 3 and a 32-step VRAM increment, and
writing 0x00 gives a 1-step increment. -/
theorem control_write_background_bug :
    ((Ppu.new Ram.create).write 0 0x10).map Ppu.background_table_addr = some 0x100
      ∧ ((Ppu.new Ram.create).write 0 0x8).map Ppu.sprite_table_addr = some 0x1000
      ∧ (0x100 : Nat) ≠ 0x1000
      ∧ ((Ppu.new Ram.create).write 0 0x80).map Ppu.nametable_base = some 0x2000
      ∧ ((Ppu.new Ram.create).write 0 0x80).map Ppu.nmi = some true
      ∧ ((Ppu.new Ram.create).write 0 0x80).map Ppu.should_nmi = some false
      ∧ ((Ppu.new Ram.create).write 0 0x80).map (fun p => p.set_vblank.should_nmi)
          = some true
      ∧ ((Ppu.new Ram.create).write 0 0x7).map Ppu.nametable_base
          = some (0x2000 + 0x400 * 3)
      ∧ ((Ppu.new Ram.create).write 0 0x7).map Ppu.incrStep = some 32
      ∧ ((Ppu.new Ram.create).write 0 0x0).map Ppu.incrStep = some 1 :=
  ⟨rfl, rfl, by decide, rfl, rfl, rfl, rfl, rfl, rfl, rfl⟩

/-! ## C8 — status read side effects -/

/-- C8: reading the status register returns the status byte as it was
before the read, then clears the vblank bit (bit 7) of the status byte and
resets the address-latch toggle to false, so the next write to the
address-latch port is treated as the high byte; the read is side-effecting
and not idempotent: on a PPU in vblank the first status read returns 0x80
and an immediately repeated read returns 0x00. -/
theorem status_read_side_effects (p : Ppu) (v : Nat) :
    Ppu.read p 2 = some (p.status, { p with status := p.status &&& 127, first_byte := false })
      ∧ Ppu.write { p with status := p.status &&& 127, first_byte := false } 6 v
          = some { p with status := p.status &&& 127, first_byte := true, addr := v <<< 8 }
      ∧ (((Ppu.new Ram.create).set_vblank.read 2).map Prod.fst = some 0x80
          ∧ ((((Ppu.new Ram.create).set_vblank.read 2).bind
                (fun r => r.2.read 2)).map Prod.fst = some 0x00)) :=
  ⟨rfl, rfl, rfl, rfl⟩

/-! ## C9 — data-port pass-through and address increment -/

/-- C9 (counterexample): latching the VRAM address 0xFFFF through two
address-latch writes and then performing a data-port write aborts: the
address increment is an unchecked 16-bit addition, and 0xFFFF plus the
configured step (32 here, the default) overflows the 16-bit range instead
of wrapping. -/
theorem data_port_overflow_counterexample :
    (((Ppu.new Ram.create).write 6 0xFF).bind
        (fun p => (p.write 6 0xFF).bind (fun p => p.write 7 0))) = none := rfl

/-- C9 (amended): a data-port access passes through to the nested internal
bus at the latched VRAM address and then auto-increments that address by
the configured step, provided the incremented address still fits in 16
bits; when the latched address is within one step of 0xFFFF the unchecked
addition overflows (aborting under checked arithmetic) rather than
wrapping. -/
theorem data_port_access (p : Ppu) (v d : Nat)
    (h : p.addr + p.incrStep ≤ 65535) :
    p.write 7 v = some { p with memory := p.memory.write p.addr v, addr := p.addr + p.incrStep }
      ∧ (p.memory.read p.addr = some d →
          p.read 7 = some (d, { p with addr := p.addr + p.incrStep })) := by
  constructor
  · unfold Ppu.write
    rw [if_pos h]
  · intro hd
    unfold Ppu.read
    rw [hd]
    dsimp only
    rw [if_pos h]

/-- PPU whose pattern-table cell 0 holds the byte 9, for exercising the
data-port theorem. -/
def c9P : Ppu := Ppu.new (Ram.create.write 0 9)

theorem data_port_access_witness :
    c9P.addr + c9P.incrStep ≤ 65535
      ∧ c9P.memory.read c9P.addr = some 9
      ∧ Ppu.write c9P 7 0
          = some { c9P with
              memory := c9P.memory.write c9P.addr 0
              addr := c9P.addr + c9P.incrStep }
      ∧ Ppu.read c9P 7 = some (9, { c9P with addr := c9P.addr + c9P.incrStep }) :=
  ⟨by decide, by decide, (data_port_access c9P 0 9 (by decide)).1,
    (data_port_access c9P 0 9 (by decide)).2 (by decide)⟩

/-! ## C10 — status reads never change the vblank boolean -/

/-- C10: a status-register read clears only the vblank bit of the raw
status byte and leaves the internal vblank boolean unchanged, so
`should_nmi()` is the same before and after the read; no register read or
write changes the vblank boolean — only `set_vblank()` and
`reset_vblank()` do. -/
theorem vblank_preserved :
    (∀ p : Ppu, ∃ p', p.read 2 = some (p.status, p')
        ∧ p'.vblank = p.vblank ∧ p'.should_nmi = p.should_nmi)
      ∧ (∀ (p : Ppu) (a v : Nat) (p' : Ppu), p.write a v = some p' → p'.vblank = p.vblank)
      ∧ (∀ (p : Ppu) (a : Nat) (r : Nat × Ppu), p.read a = some r → r.2.vblank = p.vblank)
      ∧ (∀ p : Ppu, p.set_vblank.vblank = true ∧ p.reset_vblank.vblank = false) := by
  refine ⟨fun p => ⟨_, rfl, rfl, rfl⟩, ?_, ?_, fun p => ⟨rfl, rfl⟩⟩
  · intro p a v p' h
    unfold Ppu.write at h
    split at h
    all_goals try (cases h)
    all_goals try rfl
    split at h
    · cases h
      rfl
    · cases h
  · intro p a r h
    unfold Ppu.read at h
    split at h
    all_goals try (cases h)
    all_goals try rfl
    split at h
    · cases h
    · split at h
      · cases h
        rfl
      · cases h

theorem vblank_preserved_witness :
    Ppu.write (Ppu.new Ram.create) 1 5 = some { (Ppu.new Ram.create) with mask := 5 }
      ∧ ({ (Ppu.new Ram.create) with mask := 5 } : Ppu).vblank
          = (Ppu.new Ram.create).vblank :=
  ⟨rfl, vblank_preserved.2.1 (Ppu.new Ram.create) 1 5 _ rfl⟩

end Rodomo
